import Mathlib

/-!
# Verification of the Audio Synthesis & Playback Manager

A shallow embedding of `Frontend/src/utils/AudioManager.ts` (class `AudioManager`).
JavaScript strings are modelled as `List Char`; machine integers do not occur
(all arithmetic is on `Nat` lengths and indices).  Asynchronous code is
sequentialised: each `await` chain is a pure function, background
(`setTimeout` / un-awaited promise) work is represented by explicit outcome
fields so that "resolves before the upload completes" is statable.  Remote
calls (synthesis, storage puts/gets) are oracles passed in as parameters.
-/

namespace AudioMgr

/-- JavaScript strings, modelled as lists of characters. -/
abbrev Str := List Char

/-- Shorthand for embedding Lean string literals into the model. -/
def strL (s : String) : Str := s.data

/-- The paragraph separator `"\n\n"` used throughout `AudioManager.ts`. -/
def sep : Str := strL "\n\n"

/-- Whitespace recognised by `String.prototype.trim` (ASCII subset that the
narration pipeline can produce). -/
def isWs (c : Char) : Bool := c = ' ' || c = '\n' || c = '\t' || c = '\r'

/-- `String.prototype.trim`: drop whitespace from both ends. -/
def trimJs (l : Str) : Str :=
  ((l.dropWhile isWs).reverse.dropWhile isWs).reverse

/-- `text.split('\n\n')`: split on every non-overlapping occurrence of the
two-character separator, scanning left to right (JS `String.prototype.split`
with a string separator). -/
def splitOnSep : Str → List Str
  | [] => [[]]
  | '\n' :: '\n' :: rest => [] :: splitOnSep rest
  | c :: rest =>
    match splitOnSep rest with
    | h :: t => (c :: h) :: t
    | [] => [[c]]

/-- `text.split('\n\n').filter(p => p.trim() !== '')` — the paragraph list
both chunking functions start from. -/
def paragraphsOf (text : Str) : List Str :=
  (splitOnSep text).filter (fun p => trimJs p ≠ [])

/-- Join a list of units with the paragraph separator — the effect of
`chunks.map(chunk => chunk.text).join('\n\n')` in `createAudio`, and of the
`currentChunk += '\n\n' + paragraph` accumulation in `createOptimizedChunks`. -/
def joinP : List Str → Str
  | [] => []
  | [x] => x
  | x :: y :: xs => x ++ sep ++ joinP (y :: xs)

/-- `Math.ceil(a / b)` for the non-negative quantities in play
(`Math.ceil(NaN)`/division by zero only arises when the paragraph list is
empty, in which case the chunk loop below never consults the bound). -/
def ceilDiv (a b : Nat) : Nat := (a + b - 1) / b

/-- Polly's per-call ceiling minus safety margin: `MAX_CHUNK_SIZE = 2900`. -/
def MAX_CHUNK_SIZE : Nat := 2900

/-- The paragraph-accumulation loop of `createOptimizedChunks`
(lines 304–327 of `AudioManager.ts`): greedily pack whole paragraphs into the
current chunk; a paragraph that would overflow `adjustedChunkSize` (when the
current chunk is non-empty) starts a new chunk. -/
def chunkLoop (limit : Nat) : List Str → Str → List Str → List Str
  | [], cur, acc => if 0 < cur.length then acc ++ [cur] else acc
  | p :: ps, cur, acc =>
    if limit < cur.length + p.length + 2 ∧ 0 < cur.length then
      chunkLoop limit ps p (acc ++ [cur])
    else if 0 < cur.length then
      chunkLoop limit ps (cur ++ sep ++ p) acc
    else
      chunkLoop limit ps p acc

/-- `AudioManager.createOptimizedChunks` (lines 290–334): split into
paragraphs, derive `adjustedChunkSize = min(ceil(totalLength / min(4, #paras)),
2900)`, then pack whole paragraphs greedily.  Note that a single paragraph is
never split, whatever its length. -/
def createOptimizedChunks (text : Str) : List Str :=
  let paragraphs := paragraphsOf text
  let totalLength := text.length
  let targetChunkCount := min 4 paragraphs.length
  let targetChunkSize := ceilDiv totalLength targetChunkCount
  let adjustedChunkSize := min targetChunkSize MAX_CHUNK_SIZE
  chunkLoop adjustedChunkSize paragraphs [] []

/-- Sentence terminators of the regex `[^.!?]+[.!?]+`. -/
def isTerm (c : Char) : Bool := c = '.' || c = '!' || c = '?'

/-- One step of matching `/[^.!?]+[.!?]+/g`: fuelled so the definition is
structural (fuel `≥ length + 1` never runs out, each step consumes at least
one character).  Returns the list of matches, in order. -/
def sentencesFuel : Nat → Str → List Str
  | 0, _ => []
  | fuel + 1, l =>
    let l1 := l.dropWhile isTerm
    let body := l1.takeWhile (fun c => !isTerm c)
    let rest := l1.dropWhile (fun c => !isTerm c)
    let terms := rest.takeWhile isTerm
    let rest2 := rest.dropWhile isTerm
    if rest = [] then [] else (body ++ terms) :: sentencesFuel fuel rest2

/-- `paragraph.match(/[^.!?]+[.!?]+/g)` — all maximal sentence matches. -/
def sentencesOf (l : Str) : List Str := sentencesFuel (l.length + 1) l

/-- The `MAX_PARAGRAPH_LENGTH = 500` bound of `splitTextIntoParagraphs`. -/
def MAX_PARAGRAPH_LENGTH : Nat := 500

/-- The sentence-accumulation loop inside `splitTextIntoParagraphs`
(lines 521–536): accumulate sentences while the sum stays `≤ 500`. -/
def sentenceLoop : List Str → Str → List Str → List Str
  | [], cur, acc => if cur ≠ [] then acc ++ [cur] else acc
  | s :: ss, cur, acc =>
    if cur.length + s.length ≤ MAX_PARAGRAPH_LENGTH then
      sentenceLoop ss (cur ++ s) acc
    else if cur ≠ [] then
      sentenceLoop ss s (acc ++ [cur])
    else
      sentenceLoop ss s acc

/-- `AudioManager.splitTextIntoParagraphs` (lines 507–541): paragraphs of at
most 500 characters are kept whole; longer ones are split at sentence matches
(`match` returning `null` keeps the paragraph whole: `|| [paragraph]`). -/
def splitTextIntoParagraphs (text : Str) : List Str :=
  (paragraphsOf text).flatMap fun paragraph =>
    if paragraph.length ≤ MAX_PARAGRAPH_LENGTH then
      [paragraph]
    else
      let sentences := sentencesOf paragraph
      let sentences := if sentences = [] then [paragraph] else sentences
      sentenceLoop sentences [] []

/-- Whitespace-normalisation induced by the chunker's own paragraph split:
drop blank paragraphs and canonicalise separators.  This is the only
"whitespace normalization" in play in §8 of the spec. -/
def normalizeWs (text : Str) : Str := joinP (paragraphsOf text)

/-- A single 6000-character paragraph with neither blank lines nor sentence
terminators: the worst case for the chunker's size bound. -/
def bigText : Str := List.replicate 6000 'a'

/-! ## Data model (AudioManager.ts lines 7–28, 57–70) -/

/-- `AudioChunk.status` values. -/
inductive ChunkStatus
  | pending | processing | complete | error
deriving DecidableEq, Repr

/-- Decoded audio (`AudioBuffer`): linear PCM samples; `List.length` is the
sample count (`audioBuffer.length`) used by assembly. -/
abbrev Buffer := List Int

/-- `AudioChunk` (lines 7–13). -/
structure AudioChunk where
  index : Nat
  text : Str
  audioBuffer : Option Buffer := none
  status : ChunkStatus := .pending
  error : Option Str := none
deriving DecidableEq, Repr

/-- `audioStatus` values (line 24). -/
inductive AudioStatus
  | notcreated | creating | ready | error
deriving DecidableEq, Repr

/-- `AudioManagerState` (lines 18–28).  `cachePath` holds the samples behind
the blob object URL produced by `saveAudioForPlayback` (the local track
handle); `s3Path` is the durable-storage key. -/
structure AMState where
  isPlaying : Bool
  currentChunkIndex : Nat
  chunks : List AudioChunk
  cachePath : Option Buffer := none
  s3Path : Option Str := none
  audioStatus : AudioStatus
  audioError : Option Str := none
  useSystemVoice : Bool
deriving DecidableEq, Repr

/-! ## Playback engine (lines 579–951) -/

/-- `play()` options (`{ forceUseFile?: boolean }`); an absent options object
or field behaves as `forceUseFile = false` (undefined is falsy). -/
structure PlayOptions where
  forceUseFile : Bool := false
deriving DecidableEq, Repr

/-- The backend `play()` selects (or the way it bails out). -/
inductive PlayAction
  | noop            -- already playing: the call returns at once
  | playLocalTrack  -- `playFromCache(this.state.cachePath)`
  | playRemoteTrack -- `playFromS3(this.state.s3Path)`
  | speakSystem     -- `playWithSystemVoice()`
  | notReady        -- "Cannot play audio that is not ready": silent give-up
  | errorNoSource   -- no path at all: job-level Error state
deriving DecidableEq, Repr

/-- The error message `play()` stores when no audio path exists (line 647). -/
def noAudioPathMsg : Str := strL "No audio path available for playback"

/-- `AudioManager.play` (lines 579–656), through backend selection.  Mirrors
the source's control flow: early return while playing; `isPlaying := true`;
`useExistingFile = options?.forceUseFile && (cachePath || s3Path)`; the
durable-file branch (local preferred); the system-voice branch (whose guard
`useSystemVoice && !useExistingFile` reduces to `useSystemVoice` here since
the durable branch already returned); the `audioStatus !== 'ready'` bail-out
(which resets `isPlaying` and returns with no error recorded); then the
plain track branches; else the Error transition.  The selected backend's own
downstream state traffic depends on the media environment and is modelled
separately where a claim needs it. -/
def playStep (s : AMState) (opts : PlayOptions) : AMState × PlayAction :=
  if s.isPlaying then (s, .noop)
  else
    let s1 := { s with isPlaying := true }
    if opts.forceUseFile ∧ (s1.cachePath.isSome ∨ s1.s3Path.isSome) then
      if s1.cachePath.isSome then (s1, .playLocalTrack)
      else (s1, .playRemoteTrack)
    else if s1.useSystemVoice then (s1, .speakSystem)
    else if s1.audioStatus ≠ .ready then
      ({ s1 with isPlaying := false }, .notReady)
    else if s1.cachePath.isSome then (s1, .playLocalTrack)
    else if s1.s3Path.isSome then (s1, .playRemoteTrack)
    else
      ({ s1 with
          isPlaying := false, audioStatus := .error,
          audioError := some noAudioPathMsg }, .errorNoSource)

/-- Modelled from the amended C2 claim's words (refinement reference): the
backend-selection policy stated as a flat priority list — (1) durable-file
preference with a known track plays that track, local over remote; (2)
otherwise the on-device voice speaks whenever the job uses it (even when a
durable file was requested but no track is known); (3) otherwise a job whose
synthesis status is not ready is abandoned silently (`isPlaying` left false,
status and error unchanged); (4) otherwise a known track plays, local over
remote; (5) otherwise the Error state with "No audio path available for
playback". -/
def selectBackendSpec (s : AMState) (opts : PlayOptions) : AMState × PlayAction :=
  if s.isPlaying then (s, .noop)
  else if opts.forceUseFile ∧ s.cachePath.isSome then
    ({ s with isPlaying := true }, .playLocalTrack)
  else if opts.forceUseFile ∧ s.s3Path.isSome then
    ({ s with isPlaying := true }, .playRemoteTrack)
  else if s.useSystemVoice then ({ s with isPlaying := true }, .speakSystem)
  else if s.audioStatus ≠ .ready then
    ({ s with isPlaying := false }, .notReady)
  else if s.cachePath.isSome then ({ s with isPlaying := true }, .playLocalTrack)
  else if s.s3Path.isSome then ({ s with isPlaying := true }, .playRemoteTrack)
  else
    ({ s with
        isPlaying := false, audioStatus := .error,
        audioError := some noAudioPathMsg }, .errorNoSource)

/-- Concrete state: synthesis ready but no track known (reachable e.g. after
an earlier `playFromS3` failure cleared `s3Path` but left status ready). -/
def noTrackReadyState : AMState :=
  { isPlaying := false, currentChunkIndex := 0, chunks := [],
    cachePath := none, s3Path := none, audioStatus := .ready,
    audioError := none, useSystemVoice := false }

/-- Concrete state: on-device voice configured, no track known. -/
def sysVoiceState : AMState :=
  { isPlaying := false, currentChunkIndex := 0, chunks := [],
    cachePath := none, s3Path := none, audioStatus := .ready,
    audioError := none, useSystemVoice := true }

/-! ## Playback resources and teardown (lines 872–951) -/

/-- The per-session playback resources the manager owns: the
`AudioBufferSourceNode` (`currentSource`), the `HTMLAudioElement`
(`currentAudioElement`, counted while audible — attached, unmuted, not
paused), and the speech-synthesis queue. -/
structure Resources where
  bufferSourceActive : Bool
  mediaElementAudible : Bool
  speechActive : Bool
deriving DecidableEq, Repr

/-- Number of simultaneously audible sources. -/
def Resources.countActive (r : Resources) : Nat :=
  (if r.bufferSourceActive then 1 else 0) +
  (if r.mediaElementAudible then 1 else 0) +
  (if r.speechActive then 1 else 0)

/-- `stopAnyExistingAudio` (lines 894–951), resource part: stop and
disconnect the buffer source and drop its reference; pause, rewind and mute
the media element, remove its callbacks, drop its reference; pause and
cancel speech synthesis and drop the utterance. -/
def stopAllResources (_r : Resources) : Resources :=
  { bufferSourceActive := false, mediaElementAudible := false,
    speechActive := false }

/-- The two audio backends a successful `play()` can start (the buffer-source
path is torn down but never started by the current code). -/
inductive Backend
  | mediaElement | speech
deriving DecidableEq, Repr

/-- Which resource the selected backend drives on its happy path
(`playFromCache`/`playFromS3` drive an `HTMLAudioElement`; the system-voice
path drives speech synthesis); bail-out actions drive none. -/
def PlayAction.backend : PlayAction → Option Backend
  | .playLocalTrack => some .mediaElement
  | .playRemoteTrack => some .mediaElement
  | .speakSystem => some .speech
  | _ => none

/-- Entry into `Playing`: each backend's play routine first calls
`stopAnyExistingAudio()` (lines 675, 750), then starts its single source. -/
def startBackend (b : Backend) (r : Resources) : Resources :=
  let r0 := stopAllResources r
  match b with
  | .mediaElement => { r0 with mediaElementAudible := true }
  | .speech => { r0 with speechActive := true }

/-! ## State store, subscription hub, manager instance (lines 1512–1564) -/

/-- A snapshot delivery to one subscriber: the listener identity, the heap
cell (object identity) of the delivered record — `setState` and `subscribe`
always allocate a fresh copy `{ ...this.state }` — and its value. -/
structure Delivery where
  listenerId : Nat
  cell : Nat
  snap : AMState
deriving DecidableEq, Repr

/-- The manager instance: canonical state, playback resources, subscriber
list (listener identities in subscription order), `isDestroyed`,
`manualStop`, and an object-identity counter — `liveCell` is the identity of
the record currently referenced by `this.state`, `nextCell` the next fresh
identity (a modelling device for JS object identity). -/
structure Manager where
  state : AMState
  res : Resources
  listeners : List Nat
  nextId : Nat
  destroyed : Bool
  manualStop : Bool
  liveCell : Nat
  nextCell : Nat
deriving DecidableEq, Repr

/-- A partial state update as passed to `setState`: object spread
`{ ...this.state, ...newState }` keeps every field `newState` does not
mention and overrides every field it does (including explicit
`undefined`, modelled as `some none` for the optional fields). -/
structure StateUpd where
  isPlaying : Option Bool := none
  currentChunkIndex : Option Nat := none
  chunks : Option (List AudioChunk) := none
  cachePath : Option (Option Buffer) := none
  s3Path : Option (Option Str) := none
  audioStatus : Option AudioStatus := none
  audioError : Option (Option Str) := none
  useSystemVoice : Option Bool := none
deriving DecidableEq, Repr

/-- `{ ...s, ...u }`. -/
def mergeState (s : AMState) (u : StateUpd) : AMState where
  isPlaying := u.isPlaying.getD s.isPlaying
  currentChunkIndex := u.currentChunkIndex.getD s.currentChunkIndex
  chunks := u.chunks.getD s.chunks
  cachePath := u.cachePath.getD s.cachePath
  s3Path := u.s3Path.getD s.s3Path
  audioStatus := u.audioStatus.getD s.audioStatus
  audioError := u.audioError.getD s.audioError
  useSystemVoice := u.useSystemVoice.getD s.useSystemVoice

/-- `AudioManager.setState` (lines 1549–1564): merge the update into the
single state record (`this.state = { ...this.state, ...newState }`, a fresh
record object), then — unless `isDestroyed` — synchronously notify every
current listener with one fresh snapshot copy (`const stateCopy =
{ ...this.state }`), never the live record itself. -/
def setStateM (m : Manager) (u : StateUpd) : Manager × List Delivery :=
  let s1 := mergeState m.state u
  let live := m.nextCell
  let copy := m.nextCell + 1
  let m1 := { m with
              state := s1, liveCell := live, nextCell := m.nextCell + 2 }
  let ds := if m.destroyed then [] else m.listeners.map fun l => ⟨l, copy, s1⟩
  (m1, ds)

/-- `AudioManager.subscribe` (lines 1527–1537): register the listener, then
immediately and synchronously deliver the current state as a fresh copy
(`listener({ ...this.state })`), then return the unsubscribe handle (the new
listener identity).  There is no `isDestroyed` guard here. -/
def subscribeM (m : Manager) : Manager × Nat × List Delivery :=
  let i := m.nextId
  let copy := m.nextCell
  let m1 := { m with
              listeners := m.listeners ++ [i], nextId := m.nextId + 1,
              nextCell := m.nextCell + 1 }
  (m1, i, [⟨i, copy, m.state⟩])

/-- The unsubscribe handle returned by `subscribe`:
`this.stateListeners = this.stateListeners.filter(l => l !== listener)`. -/
def unsubscribeM (m : Manager) (i : Nat) : Manager :=
  { m with listeners := m.listeners.filter (· ≠ i) }

/-- `stopAnyExistingAudio` at the manager level: the quick
`isPlaying := false` state write (issued only when currently playing), then
the resource teardown above. -/
def stopAnyExistingAudioM (m : Manager) : Manager × List Delivery :=
  let (m1, d1) :=
    if m.state.isPlaying then setStateM m { isPlaying := some false }
    else (m, [])
  ({ m1 with res := stopAllResources m1.res }, d1)

/-- `AudioManager.stop` (lines 872–889): set the manual-stop guard, tear all
backends down, force `isPlaying := false`.  (The 300 ms timer that later
clears `manualStop` is a detached continuation outside this synchronous
step.) -/
def stopM (m : Manager) : Manager × List Delivery :=
  let m0 := { m with manualStop := true }
  let (m1, d1) := stopAnyExistingAudioM m0
  let (m2, d2) := setStateM m1 { isPlaying := some false }
  (m2, d1 ++ d2)

/-- `AudioManager.destroy` (lines 1512–1522): set `isDestroyed`, `stop()`
(whose `setState` notifications are suppressed by the flag just set), close
the audio context, clear the listener list. -/
def destroyM (m : Manager) : Manager × List Delivery :=
  let m0 := { m with destroyed := true }
  let (m1, d1) := stopM m0
  ({ m1 with listeners := [] }, d1)

/-- `AudioManager.play` at the manager level, tracking the resource effect
of the selected backend's happy path: every backend entry first runs
`stopAnyExistingAudio` and then starts exactly one source (`startBackend`);
bail-out branches touch no resource. -/
def playM (m : Manager) (opts : PlayOptions) : Manager :=
  let r := playStep m.state opts
  match r.2.backend with
  | some b => { m with state := r.1, res := startBackend b m.res }
  | none => { m with state := r.1 }

/-- The externally observable part of a manager — everything except the
object-identity counters (`liveCell`/`nextCell`), which model allocation,
not state. -/
def Manager.obs (m : Manager) : AMState × Resources × Bool × List Nat × Bool :=
  (m.state, m.res, m.manualStop, m.listeners, m.destroyed)

/-- A concrete freshly constructed manager (constructor, lines 75–97, with a
non-system voice). -/
def freshManager : Manager :=
  { state := { isPlaying := false, currentChunkIndex := 0, chunks := [],
               audioStatus := .notcreated, useSystemVoice := false },
    res := { bufferSourceActive := false, mediaElementAudible := false,
             speechActive := false },
    listeners := [], nextId := 0, destroyed := false, manualStop := false,
    liveCell := 0, nextCell := 1 }

/-! ## Track assembly (`saveAudioForPlayback`, lines 339–403) -/

/-- The comparator `completeChunks.sort((a, b) => a.index - b.index)`. -/
def chunkLE (a b : AudioChunk) : Prop := a.index ≤ b.index

instance : DecidableRel chunkLE := fun a b => Nat.decLe a.index b.index

instance : IsTotal AudioChunk chunkLE := ⟨fun a b => Nat.le_total a.index b.index⟩

instance : IsTrans AudioChunk chunkLE := ⟨fun _ _ _ => Nat.le_trans⟩

/-- The success filter `chunk.status === 'complete' && chunk.audioBuffer`. -/
def isCompleteChunk (c : AudioChunk) : Bool :=
  c.status == .complete && c.audioBuffer.isSome

/-- The successfully decoded chunks of a job. -/
def completeOf (chunks : List AudioChunk) : List AudioChunk :=
  chunks.filter isCompleteChunk

/-- `AudioManager.saveAudioForPlayback` (lines 339–403) as pure track
assembly: keep the successfully decoded chunks; fail (`throw new Error('No
complete audio chunks for playback')`, here `none`) when there are none;
sort by `index`; render each buffer at consecutive sample offsets into one
continuous single-channel buffer of the summed length (concatenation — the
`OfflineAudioContext` render loop starts chunk `k` exactly at the cumulative
length of chunks before it); the WAV container encoding preserves the sample
sequence, so the track handle carries the rendered samples. -/
def assembleTrack (chunks : List AudioChunk) : Option Buffer :=
  let completeChunks := completeOf chunks
  if completeChunks = [] then none
  else
    let sorted := List.insertionSort chunkLE completeChunks
    some (sorted.map fun c => c.audioBuffer.getD []).flatten

/-! ## Audio creation (`createAudio`, lines 156–285) -/

/-- A remote-synthesis oracle: for unit index `i`, `some samples` when
`processChunk i` succeeds (API call, envelope unwrap, base64 decode,
`decodeAudioData`) and `none` when it rejects.  The whole group is awaited
via `Promise.allSettled`, whose outcome per index this oracle fixes. -/
abbrev SynthOracle := Nat → Option Buffer

/-- `optimizedTextChunks.map((text, index) => ({index, text, status:'pending'}))`. -/
def mkChunks (start : Nat) : List Str → List AudioChunk
  | [] => []
  | t :: ts =>
    { index := start, text := t, status := .pending } :: mkChunks (start + 1) ts

/-- Per-chunk processing (lines 201–254): on success the chunk receives its
decoded buffer and status complete; on rejection status error with the
stringified reason. -/
def processOne (synth : SynthOracle) (c : AudioChunk) : AudioChunk :=
  match synth c.index with
  | some buf => { c with audioBuffer := some buf, status := .complete }
  | none => { c with status := .error, error := some (strL "synthesis failed") }

/-- `String(new Error('No chunks were processed successfully'))`. -/
def noChunksMsg : Str := strL "Error: No chunks were processed successfully"

/-- `String(new Error('No complete audio chunks for playback'))`. -/
def noCompleteChunksMsg : Str :=
  strL "Error: No complete audio chunks for playback"

/-- The resolution of one `createAudio()` call: the state at resolution, the
unit indices sent to the remote service, and whether the detached background
upload (`saveAudioToS3InBackground().catch(...)`, not awaited) was launched. -/
structure CreateResult where
  state : AMState
  synthCalls : List Nat
  bgUploadStarted : Bool
deriving DecidableEq, Repr

/-- The number of units of the job `createAudio` derives for a state. -/
def jobUnitCount (s : AMState) : Nat :=
  (createOptimizedChunks (joinP (s.chunks.map AudioChunk.text))).length

/-- Lines 256–285 of `createAudio`: the continuation after the awaited
`Promise.allSettled` group — count the fulfilled chunks; if any, assemble
and expose the local track (`await saveAudioForPlayback()` sets `cachePath`
and marks `ready`) and launch, without awaiting, the detached background
upload; otherwise (or should assembly itself fail, which the outer catch
also maps to `Error`) transition the job to `Error` with the stringified
reason. -/
def createAudioFinish (s2 : AMState) (processed : List AudioChunk)
    (idxs : List Nat) : CreateResult :=
  let successfulChunks := (processed.filter fun c => c.status == .complete).length
  if 0 < successfulChunks then
    match assembleTrack processed with
    | some track =>
      ⟨{ s2 with cachePath := some track, audioStatus := .ready }, idxs, true⟩
    | none =>
      ⟨{ s2 with audioStatus := .error, audioError := some noCompleteChunksMsg },
        idxs, false⟩
  else
    ⟨{ s2 with audioStatus := .error, audioError := some noChunksMsg },
      idxs, false⟩

/-- `AudioManager.createAudio` (lines 156–285): the system-voice short
circuit; the `creating`/`ready` guard; status to `creating`; re-split the
joined chunk text through `createOptimizedChunks`; process every unit
against the synthesis oracle (`Promise.allSettled` over all indices — the
per-index outcome is order-independent, so the concurrent completion order
does not appear in the final chunk array); then the continuation above. -/
def createAudio (s : AMState) (synth : SynthOracle) : CreateResult :=
  if s.useSystemVoice then
    ⟨{ s with audioStatus := .ready }, [], false⟩
  else if s.audioStatus = .creating ∨ s.audioStatus = .ready then
    ⟨s, [], false⟩
  else
    let s1 : AMState := { s with audioStatus := .creating, audioError := none }
    let fullText := joinP (s1.chunks.map AudioChunk.text)
    let optimized := mkChunks 0 (createOptimizedChunks fullText)
    let processed := optimized.map (processOne synth)
    createAudioFinish { s1 with chunks := processed } processed
      (optimized.map AudioChunk.index)

/-- Concrete unordered mixed-outcome chunk list for the assembly witness. -/
def demoChunks : List AudioChunk :=
  [ { index := 1, text := [], audioBuffer := some [10, 20, 30], status := .complete },
    { index := 0, text := [], audioBuffer := some [1, 2], status := .complete },
    { index := 2, text := [], status := .error, error := some (strL "boom") } ]

/-- Concrete pre-creation state (one short one-sentence chunk). -/
def demoState : AMState :=
  { isPlaying := false, currentChunkIndex := 0,
    chunks := [{ index := 0, text := strL "hello." }],
    cachePath := none, s3Path := none, audioStatus := .notcreated,
    audioError := none, useSystemVoice := false }

/-- Concrete state already mid-creation. -/
def creatingState : AMState :=
  { isPlaying := false, currentChunkIndex := 0,
    chunks := [{ index := 0, text := strL "hello." }],
    cachePath := none, s3Path := none, audioStatus := .creating,
    audioError := none, useSystemVoice := false }

/-! ## Persistence coordinator (`saveAudioToS3InBackground`, lines 408–502) -/

/-- Storage environment for one background persistence run: whether the
primary upload (`enhancedStorage.put` with an `ArrayBuffer` body) succeeds,
whether the alternate-encoding retry (`put` with a `Blob` body) succeeds,
and whether the deferred verification `get` resolves with a truthy URL (a
rejected `get` and a falsy result behave identically: no callback). -/
structure PersistEnv where
  putArrayBufferOk : Bool
  putBlobOk : Bool
  getOk : Bool
deriving DecidableEq, Repr

/-- Observable outcome of one `saveAudioToS3InBackground()` run, including
the work of its detached `setTimeout` continuation. -/
structure PersistOutcome where
  s3PathSet : Bool      -- state updated with the durable key
  uploadAttempts : Nat  -- number of storage `put` calls issued
  callbackCalls : Nat   -- invocations of `updateStoryAudio` (onAudioAssigned)
  verified : Bool       -- a successful verification get happened during the run
  jsonUpdated : Bool    -- the artifact_stories.json read-modify-write was reached
  fatal : Bool          -- an exception escaped the function
deriving DecidableEq, Repr

/-- `AudioManager.saveAudioToS3InBackground` (lines 408–502): read the blob
behind `cachePath` (throwing into the outer catch when absent), upload it
under the deterministic `story_audio_<n>.mp3` key; on success set `s3Path`
and schedule, after the 2-second settling delay, a verification `get` whose
truthy result triggers the parent-record callback and then the JSON
side-record update; on primary-upload failure try exactly once more with the
alternate `Blob` encoding, and on retry success set `s3Path` and invoke the
callback and JSON update immediately — with no verification step; a retry
failure (or absent cache path) is logged and dropped.  Every exception is
caught, so the function never rejects. -/
def saveAudioToS3InBackground (cachePath : Option Buffer) (env : PersistEnv) :
    PersistOutcome :=
  match cachePath with
  | none =>
    ⟨false, 0, 0, false, false, false⟩
  | some _ =>
    if env.putArrayBufferOk then
      if env.getOk then ⟨true, 1, 1, true, true, false⟩
      else ⟨true, 1, 0, false, false, false⟩
    else
      if env.putBlobOk then ⟨true, 2, 1, false, true, false⟩
      else ⟨false, 2, 0, false, false, false⟩

/-! ## Operation traces over one manager instance -/

/-- Later operations on a manager instance, at the granularity relevant to
notification delivery: every state write in the class flows through
`setState`, so `mutateOp` stands for the state-writing step of any public
method (`play`, `resetAudioState`, `updateS3Path`, the `createAudio`
pipeline, …), alongside subscription management, `stop` and `destroy`. -/
inductive Op
  | subscribeOp
  | unsubscribeOp (i : Nat)
  | mutateOp (u : StateUpd)
  | stopOp
  | destroyOp
deriving DecidableEq, Repr

/-- Run one operation: next manager plus the notifications delivered. -/
def runOp (m : Manager) : Op → Manager × List Delivery
  | .subscribeOp => ((subscribeM m).1, (subscribeM m).2.2)
  | .unsubscribeOp i => (unsubscribeM m i, [])
  | .mutateOp u => setStateM m u
  | .stopOp => stopM m
  | .destroyOp => destroyM m

/-- Run a trace of operations, collecting every delivery in order. -/
def runOps (m : Manager) : List Op → Manager × List Delivery
  | [] => (m, [])
  | op :: ops =>
    let r := runOp m op
    let rs := runOps r.1 ops
    (rs.1, r.2 ++ rs.2)

/-! ## Chunker lemmas -/

theorem joinP_cons (x : Str) (l : List Str) (h : l ≠ []) :
    joinP (x :: l) = x ++ sep ++ joinP l := by
  cases l with
  | nil => exact absurd rfl h
  | cons y ys => rfl

theorem joinP_append_middle (acc : List Str) (a b : Str) (rest : List Str) :
    joinP (acc ++ (a ++ sep ++ b) :: rest) = joinP (acc ++ a :: b :: rest) := by
  induction acc with
  | nil =>
    cases rest with
    | nil => simp [joinP, List.append_assoc]
    | cons y ys =>
      rw [List.nil_append, List.nil_append,
        joinP_cons _ (y :: ys) (by simp), joinP_cons a (b :: y :: ys) (by simp),
        joinP_cons b (y :: ys) (by simp)]
      simp [List.append_assoc]
  | cons x acc ih =>
    rw [List.cons_append, List.cons_append,
      joinP_cons x (acc ++ (a ++ sep ++ b) :: rest) (by simp),
      joinP_cons x (acc ++ a :: b :: rest) (by simp), ih]

theorem chunkLoop_join (limit : Nat) (ps : List Str) (cur : Str)
    (acc : List Str) (hps : ∀ p ∈ ps, p ≠ []) (hcur : cur ≠ []) :
    joinP (chunkLoop limit ps cur acc) = joinP (acc ++ cur :: ps) := by
  induction ps generalizing cur acc with
  | nil =>
    have : 0 < cur.length := List.length_pos.mpr hcur
    simp [chunkLoop, this]
  | cons p rest ih =>
    have hp : p ≠ [] := hps p (List.mem_cons_self _ _)
    have hrest : ∀ q ∈ rest, q ≠ [] := fun q hq => hps q (List.mem_cons_of_mem _ hq)
    have hcl : 0 < cur.length := List.length_pos.mpr hcur
    by_cases hov : limit < cur.length + p.length + 2 ∧ 0 < cur.length
    · rw [chunkLoop, if_pos hov, ih p (acc ++ [cur]) hrest hp]
      simp [List.append_assoc]
    · rw [chunkLoop, if_neg hov, if_pos hcl,
        ih (cur ++ sep ++ p) acc hrest (by simp [sep, strL]),
        joinP_append_middle]

theorem chunkLoop_bound (limit : Nat) (P : Str → Prop) (ps : List Str)
    (cur : Str) (acc : List Str)
    (hps : ∀ p ∈ ps, P p)
    (hcur : cur = [] ∨ P cur ∨ cur.length ≤ limit)
    (hacc : ∀ c ∈ acc, P c ∨ c.length ≤ limit) :
    ∀ c ∈ chunkLoop limit ps cur acc, P c ∨ c.length ≤ limit := by
  induction ps generalizing cur acc with
  | nil =>
    intro c hc
    by_cases h : 0 < cur.length
    · rw [chunkLoop, if_pos h] at hc
      rcases List.mem_append.mp hc with h1 | h1
      · exact hacc c h1
      · have : c = cur := by simpa using h1
        subst this
        rcases hcur with h2 | h2
        · simp [h2] at h
        · exact h2
    · rw [chunkLoop, if_neg h] at hc
      exact hacc c hc
  | cons p rest ih =>
    intro c hc
    have hp : P p := hps p (List.mem_cons_self _ _)
    have hrest : ∀ q ∈ rest, P q := fun q hq => hps q (List.mem_cons_of_mem _ hq)
    by_cases hov : limit < cur.length + p.length + 2 ∧ 0 < cur.length
    · rw [chunkLoop, if_pos hov] at hc
      refine ih p (acc ++ [cur]) hrest (Or.inr (Or.inl hp)) ?_ c hc
      intro d hd
      rcases List.mem_append.mp hd with h1 | h1
      · exact hacc d h1
      · have : d = cur := by simpa using h1
        subst this
        rcases hcur with h2 | h2
        · rcases hov with ⟨-, h3⟩
          simp [h2] at h3
        · exact h2
    · by_cases hcl : 0 < cur.length
      · rw [chunkLoop, if_neg hov, if_pos hcl] at hc
        refine ih (cur ++ sep ++ p) acc hrest (Or.inr (Or.inr ?_)) hacc c hc
        have hle : cur.length + p.length + 2 ≤ limit := by
          rcases Nat.lt_or_ge limit (cur.length + p.length + 2) with h1 | h1
          · exact absurd ⟨h1, hcl⟩ hov
          · exact h1
        simp only [List.length_append, sep, strL]
        simp [String.data]
        omega
      · rw [chunkLoop, if_neg hov, if_neg hcl] at hc
        exact ih p acc hrest (Or.inr (Or.inl hp)) hacc c hc

/-- Every paragraph kept by the chunker's filter is non-empty. -/
theorem paragraphsOf_ne_nil (text : Str) : ∀ p ∈ paragraphsOf text, p ≠ [] := by
  intro p hp
  rcases List.mem_filter.mp hp with ⟨-, h⟩
  intro hnil
  subst hnil
  simp [trimJs] at h

/-- The chunker neither drops, reorders, nor edits paragraph text: joining its
units with the separator equals joining the paragraph list directly. -/
theorem createOptimizedChunks_join (text : Str) :
    joinP (createOptimizedChunks text) = normalizeWs text := by
  unfold createOptimizedChunks normalizeWs
  cases hps : paragraphsOf text with
  | nil => simp [chunkLoop]
  | cons p rest =>
    have hnn := paragraphsOf_ne_nil text
    rw [hps] at hnn
    have hp : p ≠ [] := hnn p (List.mem_cons_self _ _)
    have hrest : ∀ q ∈ rest, q ≠ [] := fun q hq => hnn q (List.mem_cons_of_mem _ hq)
    have h0 : ¬ (0 : Nat) < ([] : Str).length := by simp
    rw [chunkLoop, if_neg (by simp), if_neg h0,
      chunkLoop_join _ rest p [] hrest hp]
    simp

/-! ## Lemmas for evaluating the chunker on long uniform texts
(the kernel cannot brute-force a 6000-character list, so the pipeline is
evaluated by these structural lemmas instead). -/

theorem dropWhile_eq_self_of_all (p : Char → Bool) (l : Str)
    (h : ∀ c ∈ l, p c = false) : l.dropWhile p = l := by
  cases l with
  | nil => rfl
  | cons c rest => simp [List.dropWhile_cons, h c (List.mem_cons_self _ _)]

theorem trimJs_eq_self (l : Str) (h : ∀ c ∈ l, isWs c = false) :
    trimJs l = l := by
  unfold trimJs
  rw [dropWhile_eq_self_of_all _ _ h,
    dropWhile_eq_self_of_all _ _ (fun c hc => h c (List.mem_reverse.mp hc)),
    List.reverse_reverse]

theorem splitOnSep_no_newline (l : Str) (h : ∀ c ∈ l, c ≠ '\n') :
    splitOnSep l = [l] := by
  induction l with
  | nil => rfl
  | cons c rest ih =>
    have hc : c ≠ '\n' := h c (List.mem_cons_self _ _)
    have hrest : ∀ d ∈ rest, d ≠ '\n' := fun d hd => h d (List.mem_cons_of_mem _ hd)
    rw [splitOnSep.eq_def]
    split
    · simp_all
    · rename_i r heq
      rw [List.cons.injEq] at heq
      exact absurd heq.1 hc
    · rename_i c2 rest2 hne heq
      rw [List.cons.injEq] at heq
      obtain ⟨h1, h2⟩ := heq
      subst h1; subst h2
      rw [ih hrest]

theorem sentencesOf_all_nonterm (l : Str) (h : ∀ c ∈ l, isTerm c = false) :
    sentencesOf l = [] := by
  unfold sentencesOf
  rw [sentencesFuel]
  have h1 : l.dropWhile isTerm = l := dropWhile_eq_self_of_all _ _ h
  have h2 : l.dropWhile (fun c => !isTerm c) = [] := by
    rw [List.dropWhile_eq_nil_iff]
    intro c hc
    simp [h c hc]
  simp only [h1, h2]
  simp

theorem bigText_all : ∀ c ∈ bigText, c = 'a' := by
  intro c hc
  exact (List.eq_of_mem_replicate hc)

theorem bigText_length : bigText.length = 6000 := by
  rw [bigText, List.length_replicate]

/-- A single over-long sentence-less paragraph passes the sentence
accumulator whole. -/
theorem sentenceLoop_single_long (s : Str)
    (h : ¬ ([] : Str).length + s.length ≤ MAX_PARAGRAPH_LENGTH) (hs : s ≠ []) :
    sentenceLoop [s] [] [] = [s] := by
  rw [sentenceLoop.eq_def]
  simp only [h, if_neg, if_false]
  rw [if_neg (by simp)]
  rw [sentenceLoop.eq_def]
  simp [hs]

theorem paragraphsOf_bigText : paragraphsOf bigText = [bigText] := by
  unfold paragraphsOf
  rw [splitOnSep_no_newline _ (fun c hc => by rw [bigText_all c hc]; decide)]
  rw [List.filter_cons]
  have htr : trimJs bigText = bigText :=
    trimJs_eq_self _ (fun c hc => by rw [bigText_all c hc]; rfl)
  have hne : bigText ≠ [] := by
    intro hn
    have := bigText_length
    rw [hn] at this
    simp at this
  simp only [htr]
  rw [if_pos (by simp [hne]), List.filter_nil]

theorem splitTextIntoParagraphs_bigText :
    splitTextIntoParagraphs bigText = [bigText] := by
  unfold splitTextIntoParagraphs
  rw [paragraphsOf_bigText]
  have hlen : ¬ bigText.length ≤ MAX_PARAGRAPH_LENGTH := by
    rw [bigText_length]; decide
  have hsent : sentencesOf bigText = [] :=
    sentencesOf_all_nonterm _ (fun c hc => by rw [bigText_all c hc]; rfl)
  have h500 : ¬ ([] : Str).length + bigText.length ≤ MAX_PARAGRAPH_LENGTH := by
    rw [bigText_length]; decide
  have hne : bigText ≠ [] := by
    intro hn
    have := bigText_length
    rw [hn] at this
    simp at this
  simp only [List.flatMap_cons, List.flatMap_nil, List.append_nil, if_neg hlen,
    hsent, if_pos rfl]
  exact sentenceLoop_single_long bigText h500 hne

theorem createOptimizedChunks_bigText :
    createOptimizedChunks bigText = [bigText] := by
  unfold createOptimizedChunks
  rw [paragraphsOf_bigText]
  rw [chunkLoop, if_neg (by simp), if_neg (by simp)]
  rw [chunkLoop]
  have hne : 0 < bigText.length := by rw [bigText_length]; decide
  simp [hne]

theorem joinP_single (x : Str) : joinP [x] = x := rfl

/-! ## Claims C5 and C6 -/

/-- C5 counterexample.  A 6000-character single-paragraph, single-"sentence"
text passes both the initial paragraph split (`splitTextIntoParagraphs`) and
the optimised chunker (`createOptimizedChunks`, applied in `createAudio` to
the rejoined paragraph text) completely unsplit, producing one unit of 6000
characters — far above `maxUnitChars = 2900`.  The code never splits a
paragraph at sentence boundaries against the 2900 limit (sentence splitting
exists only against a 500-character bound, and not for sentence-less text),
so the claimed universal per-unit bound is false. -/
theorem chunker_unit_size_counterexample :
    splitTextIntoParagraphs bigText = [bigText] ∧
    createOptimizedChunks (joinP (splitTextIntoParagraphs bigText)) = [bigText] ∧
    MAX_CHUNK_SIZE < bigText.length := by
  refine ⟨splitTextIntoParagraphs_bigText, ?_, ?_⟩
  · rw [splitTextIntoParagraphs_bigText, joinP_single,
      createOptimizedChunks_bigText]
  · rw [bigText_length]; decide

/-- C5 (amended): every unit produced by the optimised chunker is either one
whole paragraph of the input — which may exceed `maxUnitChars = 2900`, since
the optimised chunker never splits inside a paragraph — or a packed group of
paragraphs whose total length is at most 2900 characters. -/
theorem chunker_unit_size_amended (text : Str) (c : Str)
    (hc : c ∈ createOptimizedChunks text) :
    c ∈ paragraphsOf text ∨ c.length ≤ MAX_CHUNK_SIZE := by
  unfold createOptimizedChunks at hc
  have := chunkLoop_bound
    (min (ceilDiv text.length (min 4 (paragraphsOf text).length)) MAX_CHUNK_SIZE)
    (· ∈ paragraphsOf text) (paragraphsOf text) [] []
    (fun p hp => hp) (Or.inl rfl) (by simp) c hc
  rcases this with h | h
  · exact Or.inl h
  · exact Or.inr (le_trans h (min_le_right _ _))

/-- Witness for the amended C5 theorem at a concrete two-paragraph text. -/
theorem chunker_unit_size_amended_witness :
    strL "hi" ∈ createOptimizedChunks (strL "hi\n\nyo") ∧
    (strL "hi" ∈ paragraphsOf (strL "hi\n\nyo") ∨
      (strL "hi").length ≤ MAX_CHUNK_SIZE) := by
  refine ⟨by decide, chunker_unit_size_amended _ _ (by decide)⟩

/-- C6: for every text the chunker splits into at most four units (indeed for
every text), joining the units back with the paragraph separator reproduces
the text up to whitespace normalisation (blank-paragraph removal and
separator canonicalisation — the normalisation induced by the chunker's own
paragraph split). -/
theorem chunk_rejoin_round_trip (text : Str)
    (hfour : (createOptimizedChunks text).length ≤ 4) :
    joinP (createOptimizedChunks text) = normalizeWs text :=
  createOptimizedChunks_join text

/-- Witness for C6 at a concrete two-paragraph text. -/
theorem chunk_rejoin_round_trip_witness :
    (createOptimizedChunks (strL "hi\n\nyo")).length ≤ 4 ∧
    joinP (createOptimizedChunks (strL "hi\n\nyo")) = normalizeWs (strL "hi\n\nyo") :=
  ⟨by decide, chunk_rejoin_round_trip _ (by decide)⟩

/-! ## Assembly lemmas -/

/-- Two `chunkLE`-sorted chunk lists with duplicate-free indices that are
permutations of each other coincide. -/
theorem sorted_nodup_unique (l1 l2 : List AudioChunk)
    (h1 : l1.Sorted chunkLE) (h2 : l2.Sorted chunkLE)
    (hnd : (l1.map AudioChunk.index).Nodup) (hp : l1.Perm l2) : l1 = l2 := by
  induction l1 generalizing l2 with
  | nil => exact (hp.symm.eq_nil).symm
  | cons a t1 ih =>
    cases l2 with
    | nil => exact absurd hp.eq_nil (by simp)
    | cons b t2 =>
      have hab : a = b := by
        have hbmem : b ∈ a :: t1 := hp.symm.subset (List.mem_cons_self _ _)
        have hamem : a ∈ b :: t2 := hp.subset (List.mem_cons_self _ _)
        rcases List.mem_cons.mp hbmem with hba | hbt1
        · exact hba.symm
        rcases List.mem_cons.mp hamem with hab | hat2
        · exact hab
        have h1' : a.index ≤ b.index := List.rel_of_sorted_cons h1 b hbt1
        have h2' : b.index ≤ a.index := List.rel_of_sorted_cons h2 a hat2
        have heq : a.index = b.index := Nat.le_antisymm h1' h2'
        rw [List.map_cons, List.nodup_cons] at hnd
        exact absurd (heq ▸ List.mem_map_of_mem AudioChunk.index hbt1) hnd.1
      subst hab
      have htp : t1.Perm t2 := hp.cons_inv
      have := ih t2 h1.of_cons h2.of_cons (by
        rw [List.map_cons, List.nodup_cons] at hnd
        exact hnd.2) htp
      rw [this]

theorem assembleTrack_eq_none_iff (chunks : List AudioChunk) :
    assembleTrack chunks = none ↔ completeOf chunks = [] := by
  by_cases h : completeOf chunks = [] <;> simp [assembleTrack, h]

theorem assembleTrack_length (chunks : List AudioChunk) (t : Buffer)
    (ht : assembleTrack chunks = some t) :
    t.length =
      ((completeOf chunks).map fun c => (c.audioBuffer.getD []).length).sum := by
  unfold assembleTrack at ht
  by_cases h : completeOf chunks = []
  · simp [h] at ht
  · simp only [h, if_neg, if_false, Option.some.injEq] at ht
    subst ht
    rw [List.length_flatten, List.map_map]
    exact List.Perm.sum_eq
      (List.Perm.map _ (List.perm_insertionSort chunkLE (completeOf chunks)))

theorem assembleTrack_perm (chunks chunks' : List AudioChunk)
    (hnd : (chunks.map AudioChunk.index).Nodup) (hp : chunks.Perm chunks') :
    assembleTrack chunks = assembleTrack chunks' := by
  have hpc : (completeOf chunks).Perm (completeOf chunks') :=
    hp.filter isCompleteChunk
  by_cases h : completeOf chunks = []
  · have h' : completeOf chunks' = [] := by
      rw [h] at hpc
      exact hpc.symm.eq_nil
    simp [assembleTrack, h, h']
  · have h' : completeOf chunks' ≠ [] := fun hn => h (hn ▸ hpc).eq_nil
    have hndc : ((completeOf chunks).map AudioChunk.index).Nodup :=
      List.Nodup.sublist (List.Sublist.map _ (List.filter_sublist _)) hnd
    have hnds :
        ((List.insertionSort chunkLE (completeOf chunks)).map AudioChunk.index).Nodup :=
      (List.Perm.nodup_iff
        (List.Perm.map _ (List.perm_insertionSort chunkLE _))).mpr hndc
    have hperm : (List.insertionSort chunkLE (completeOf chunks)).Perm
        (List.insertionSort chunkLE (completeOf chunks')) :=
      (List.perm_insertionSort _ _).trans
        (hpc.trans (List.perm_insertionSort _ _).symm)
    have heq := sorted_nodup_unique _ _
      (List.sorted_insertionSort chunkLE _) (List.sorted_insertionSort chunkLE _)
      hnds hperm
    simp [assembleTrack, h, h', heq]

theorem assembleTrack_sorted_complete (chunks : List AudioChunk)
    (hne : chunks ≠ []) (hs : chunks.Sorted chunkLE)
    (hall : ∀ c ∈ chunks, isCompleteChunk c = true) :
    assembleTrack chunks =
      some ((chunks.map fun c => c.audioBuffer.getD []).flatten) := by
  have hco : completeOf chunks = chunks := List.filter_eq_self.mpr hall
  unfold assembleTrack
  rw [hco, if_neg hne, List.Sorted.insertionSort_eq hs]

/-! ## Creation lemmas -/

theorem mkChunks_mem (start : Nat) (ts : List Str) :
    ∀ c ∈ mkChunks start ts,
      start ≤ c.index ∧ c.index < start + ts.length ∧ c.status = .pending := by
  induction ts generalizing start with
  | nil => simp [mkChunks]
  | cons t ts ih =>
    intro c hc
    rw [mkChunks] at hc
    rcases List.mem_cons.mp hc with rfl | hc
    · refine ⟨Nat.le_refl _, by simp only [List.length_cons]; omega, rfl⟩
    · obtain ⟨h1, h2, h3⟩ := ih (start + 1) c hc
      exact ⟨by omega, by simp only [List.length_cons] at h2 ⊢; omega, h3⟩

theorem mkChunks_index_surj (start : Nat) (ts : List Str) :
    ∀ i, start ≤ i → i < start + ts.length →
      ∃ c ∈ mkChunks start ts, c.index = i := by
  induction ts generalizing start with
  | nil =>
    intro i h1 h2
    simp at h2
    omega
  | cons t ts ih =>
    intro i h1 h2
    by_cases he : i = start
    · exact ⟨_, List.mem_cons_self _ _, he.symm⟩
    · obtain ⟨c, hc, hci⟩ := ih (start + 1) i (by omega)
        (by simp only [List.length_cons] at h2 ⊢; omega)
      exact ⟨c, List.mem_cons_of_mem _ hc, hci⟩

/-! ## Playback-engine lemmas -/

theorem countActive_startBackend (b : Backend) (r : Resources) :
    (startBackend b r).countActive = 1 := by
  cases b <;> rfl

theorem stopM_res (m : Manager) :
    (stopM m).1.res = stopAllResources m.res := by
  by_cases h : m.state.isPlaying <;>
    simp [stopM, stopAnyExistingAudioM, setStateM, h, stopAllResources]

/-! ## Claims C2 and C3 -/

/-- C2 counterexample.  Two concrete deviations from the claimed selection
policy: (a) with synthesis ready but no track known, `play()` transitions to
the Error state with the message "No audio path available for playback", not
"no audio source available"; (b) with the on-device voice configured and a
durable file explicitly requested but no track known, `play()` speaks with
the system voice rather than (per the claim, whose clause 2 requires "no
durable file is preferred") falling through to the Error state. -/
theorem play_backend_selection_counterexample :
    ((playStep noTrackReadyState ⟨false⟩).1.audioStatus = .error ∧
     (playStep noTrackReadyState ⟨false⟩).1.audioError = some noAudioPathMsg ∧
     noAudioPathMsg ≠ strL "no audio source available") ∧
    ((playStep sysVoiceState ⟨true⟩).2 = .speakSystem ∧
     (playStep sysVoiceState ⟨true⟩).2 ≠ .errorNoSource) := by
  decide

/-- C2 (amended): for every state and options, `play` selects the backend in
exactly this order: (1) if the options request the durable file and a local
or remote track is known, that track is played, local preferred over remote;
(2) otherwise, if the job uses the on-device voice, the full text is spoken
(including when a durable file was requested but no track is known); (3)
otherwise, if synthesis status is not ready, the call gives up silently,
leaving status and error unchanged and `isPlaying` false; (4) otherwise, if a
track is known it is played, local preferred over remote; (5) otherwise the
state transitions to Error with the message "No audio path available for
playback".  (A call while already playing returns unchanged.) -/
theorem play_backend_selection_amended (s : AMState) (opts : PlayOptions) :
    playStep s opts = selectBackendSpec s opts := by
  unfold playStep selectBackendSpec
  by_cases hp : s.isPlaying
  · simp [hp]
  · by_cases hf : opts.forceUseFile <;>
    by_cases hc : s.cachePath.isSome <;>
    by_cases h3 : s.s3Path.isSome <;>
    by_cases hv : s.useSystemVoice <;>
    by_cases hr : s.audioStatus = .ready <;>
    simp [hp, hf, hc, h3, hv, hr]

/-- C3: at most one playback session is audible per manager instance.
Conjunction: (1) `stop()` tears every backend down (zero audible sources);
(2) `stop()` is idempotent on the observable manager (state, resources,
flags, listeners); (3) a `stop()` followed immediately by `play()` leaves at
most one audible source, whichever backend is selected; (4) any `play()`
either touches no resource (bail-out branches) or enters a backend through
full teardown, ending with at most one audible source. -/
theorem playback_single_session (m : Manager) (opts : PlayOptions) :
    ((stopM m).1.res.countActive = 0) ∧
    ((stopM (stopM m).1).1.obs = (stopM m).1.obs) ∧
    ((playM (stopM m).1 opts).res.countActive ≤ 1) ∧
    ((playM m opts).res = m.res ∨ (playM m opts).res.countActive ≤ 1) := by
  refine ⟨?_, ?_, ?_, ?_⟩
  · rw [stopM_res]; rfl
  · by_cases h : m.state.isPlaying <;>
      simp [stopM, stopAnyExistingAudioM, setStateM, mergeState, h,
        stopAllResources, Manager.obs]
  · cases hb : (playStep (stopM m).1.state opts).2.backend with
    | none =>
      simp only [playM, hb]
      rw [stopM_res]
      simp [stopAllResources, Resources.countActive]
    | some b =>
      simp only [playM, hb]
      rw [countActive_startBackend]
  · cases hb : (playStep m.state opts).2.backend with
    | none => exact Or.inl (by simp only [playM, hb])
    | some b =>
      refine Or.inr ?_
      simp only [playM, hb]
      rw [countActive_startBackend]

/-! ## Creation-path lemmas -/

theorem createAudioFinish_no_success (s2 : AMState) (processed : List AudioChunk)
    (idxs : List Nat)
    (hfilter : (processed.filter fun c => c.status == .complete) = []) :
    createAudioFinish s2 processed idxs =
      ⟨{ s2 with audioStatus := .error, audioError := some noChunksMsg },
        idxs, false⟩ := by
  unfold createAudioFinish
  rw [hfilter]
  simp

theorem createAudioFinish_success (s2 : AMState) (processed : List AudioChunk)
    (idxs : List Nat) (t : Buffer)
    (hfpos : 0 < (processed.filter fun c => c.status == .complete).length)
    (ht : assembleTrack processed = some t) :
    createAudioFinish s2 processed idxs =
      ⟨{ s2 with cachePath := some t, audioStatus := .ready }, idxs, true⟩ := by
  unfold createAudioFinish
  rw [if_pos hfpos, ht]

theorem createAudio_eq_finish (s : AMState) (synth : SynthOracle)
    (hvoice : s.useSystemVoice = false)
    (hstatus : ¬(s.audioStatus = .creating ∨ s.audioStatus = .ready)) :
    createAudio s synth =
      createAudioFinish
        { s with
          audioStatus := .creating, audioError := none,
          chunks := (mkChunks 0 (createOptimizedChunks
            (joinP (s.chunks.map AudioChunk.text)))).map (processOne synth) }
        ((mkChunks 0 (createOptimizedChunks
          (joinP (s.chunks.map AudioChunk.text)))).map (processOne synth))
        ((mkChunks 0 (createOptimizedChunks
          (joinP (s.chunks.map AudioChunk.text)))).map AudioChunk.index) := by
  unfold createAudio
  rw [if_neg (by simp [hvoice]), if_neg hstatus]

/-! ## Claims C4, C10 and C1 -/

/-- C4: track assembly fails exactly when the unit set contains no
successfully decoded unit (in particular when it is empty); on success the
assembled track's total sample length is the sum of the sample lengths of
the successful units only; the result is invariant under every permutation
of the unit set (so the completion order of the concurrent synthesis calls
is irrelevant); and a fully successful index-sorted unit list renders as the
concatenation of its buffers in index order. -/
theorem assembly_gap_semantics (chunks : List AudioChunk)
    (hnd : (chunks.map AudioChunk.index).Nodup) :
    (assembleTrack chunks = none ↔ completeOf chunks = []) ∧
    (∀ t, assembleTrack chunks = some t →
      t.length =
        ((completeOf chunks).map fun c => (c.audioBuffer.getD []).length).sum) ∧
    (∀ chunks', chunks.Perm chunks' →
      assembleTrack chunks = assembleTrack chunks') ∧
    (chunks ≠ [] → chunks.Sorted chunkLE →
      (∀ c ∈ chunks, isCompleteChunk c = true) →
      assembleTrack chunks =
        some ((chunks.map fun c => c.audioBuffer.getD []).flatten)) :=
  ⟨assembleTrack_eq_none_iff chunks,
   fun t ht => assembleTrack_length chunks t ht,
   fun chunks' hp => assembleTrack_perm chunks chunks' hnd hp,
   fun hne hs hall => assembleTrack_sorted_complete chunks hne hs hall⟩

/-- Witness for C4 at a concrete out-of-order unit set with one failed unit:
the track is the two successful buffers joined in index order, of summed
length. -/
theorem assembly_gap_semantics_witness :
    (demoChunks.map AudioChunk.index).Nodup ∧
    assembleTrack demoChunks = some [1, 2, 10, 20, 30] ∧
    (∀ t, assembleTrack demoChunks = some t →
      t.length =
        ((completeOf demoChunks).map fun c => (c.audioBuffer.getD []).length).sum) :=
  ⟨by decide, by decide, (assembly_gap_semantics demoChunks (by decide)).2.1⟩

/-- C10: for a manager not configured to use the on-device voice, calling
`createAudio()` while the job status is already `Creating` or `Ready`
returns without issuing any synthesis call, without launching a background
upload, and with the state record exactly unchanged. -/
theorem createAudio_noop_when_active (s : AMState) (synth : SynthOracle)
    (hvoice : s.useSystemVoice = false)
    (hstatus : s.audioStatus = .creating ∨ s.audioStatus = .ready) :
    createAudio s synth = ⟨s, [], false⟩ := by
  unfold createAudio
  rw [if_neg (by simp [hvoice]), if_pos hstatus]

/-- Witness for C10 at a concrete mid-creation state. -/
theorem createAudio_noop_when_active_witness :
    creatingState.useSystemVoice = false ∧
    (creatingState.audioStatus = .creating ∨ creatingState.audioStatus = .ready) ∧
    createAudio creatingState (fun i => some [Int.ofNat i]) =
      ⟨creatingState, [], false⟩ :=
  ⟨rfl, Or.inl rfl,
    createAudio_noop_when_active creatingState _ rfl (Or.inl rfl)⟩

/-- C1: for a job entering creation (non-system voice, status not yet
creating/ready, no local track), if every unit fails remote synthesis then
`createAudio()` resolves with job status `Error`, a non-empty error message,
no local track handle, and no background upload; if at least one unit
succeeds it resolves with status `Ready` and a local track handle set, the
background durable upload launched but not awaited — in particular the
remote key (`s3Path`) is still untouched at resolution. -/
theorem createAudio_failure_tolerance (s : AMState) (synth : SynthOracle)
    (hvoice : s.useSystemVoice = false)
    (hstatus : s.audioStatus = .notcreated ∨ s.audioStatus = .error)
    (hcache : s.cachePath = none) :
    ((∀ i, i < jobUnitCount s → synth i = none) →
      (createAudio s synth).state.audioStatus = .error ∧
      (createAudio s synth).state.audioError = some noChunksMsg ∧
      noChunksMsg ≠ [] ∧
      (createAudio s synth).state.cachePath = none ∧
      (createAudio s synth).bgUploadStarted = false) ∧
    ((∃ i, i < jobUnitCount s ∧ (synth i).isSome = true) →
      (createAudio s synth).state.audioStatus = .ready ∧
      (createAudio s synth).state.cachePath.isSome = true ∧
      (createAudio s synth).bgUploadStarted = true ∧
      (createAudio s synth).state.s3Path = s.s3Path) := by
  have hs' : ¬ (s.audioStatus = .creating ∨ s.audioStatus = .ready) := by
    rcases hstatus with h | h <;> simp [h]
  rw [createAudio_eq_finish s synth hvoice hs']
  constructor
  · intro hfail
    have hfilter :
        (((mkChunks 0 (createOptimizedChunks
            (joinP (s.chunks.map AudioChunk.text)))).map
          (processOne synth)).filter fun c => c.status == .complete) = [] := by
      rw [List.filter_eq_nil_iff]
      intro c hc
      obtain ⟨c0, hc0, rfl⟩ := List.mem_map.mp hc
      obtain ⟨-, h2, -⟩ := mkChunks_mem 0 _ c0 hc0
      have hidx : synth c0.index = none := by
        apply hfail
        simpa [jobUnitCount] using h2
      simp [processOne, hidx]
    rw [createAudioFinish_no_success _ _ _ hfilter]
    refine ⟨rfl, rfl, by decide, ?_, rfl⟩
    simpa using hcache
  · rintro ⟨i, hi, hsome⟩
    obtain ⟨c0, hc0, hci⟩ := mkChunks_index_surj 0
      (createOptimizedChunks (joinP (s.chunks.map AudioChunk.text))) i
      (Nat.zero_le _) (by simpa [jobUnitCount] using hi)
    obtain ⟨buf, hbuf⟩ := Option.isSome_iff_exists.mp hsome
    have hproc : processOne synth c0 =
        { c0 with audioBuffer := some buf, status := .complete } := by
      rw [processOne, hci, hbuf]
    have hmem : processOne synth c0 ∈
        (mkChunks 0 (createOptimizedChunks
          (joinP (s.chunks.map AudioChunk.text)))).map (processOne synth) :=
      List.mem_map_of_mem _ hc0
    have hfpos : 0 <
        (((mkChunks 0 (createOptimizedChunks
            (joinP (s.chunks.map AudioChunk.text)))).map
          (processOne synth)).filter fun c => c.status == .complete).length := by
      rcases hf : ((mkChunks 0 (createOptimizedChunks
          (joinP (s.chunks.map AudioChunk.text)))).map
          (processOne synth)).filter fun c => c.status == .complete with _ | ⟨x, xs⟩
      · exfalso
        have := (List.filter_eq_nil_iff.mp hf) _ hmem
        rw [hproc] at this
        simp at this
      · rw [hf]
        simp
    have hcne : completeOf
        ((mkChunks 0 (createOptimizedChunks
          (joinP (s.chunks.map AudioChunk.text)))).map (processOne synth)) ≠ [] := by
      intro hnil
      have := (List.filter_eq_nil_iff.mp hnil) _ hmem
      rw [hproc] at this
      simp [isCompleteChunk] at this
    obtain ⟨t, ht⟩ : ∃ t, assembleTrack
        ((mkChunks 0 (createOptimizedChunks
          (joinP (s.chunks.map AudioChunk.text)))).map (processOne synth)) = some t := by
      cases hA : assembleTrack ((mkChunks 0 (createOptimizedChunks
          (joinP (s.chunks.map AudioChunk.text)))).map (processOne synth)) with
      | none => exact absurd ((assembleTrack_eq_none_iff _).mp hA) hcne
      | some t => exact ⟨t, rfl⟩
    rw [createAudioFinish_success _ _ _ t hfpos ht]
    exact ⟨rfl, rfl, rfl, rfl⟩

/-- Witness for C1 at a concrete one-unit job: the all-fail oracle yields the
`Error` resolution, the all-succeed oracle the `Ready` resolution with a
local track and a pending background upload. -/
theorem createAudio_failure_tolerance_witness :
    ((createAudio demoState (fun _ => none)).state.audioStatus = .error ∧
     (createAudio demoState (fun _ => none)).state.audioError = some noChunksMsg ∧
     noChunksMsg ≠ [] ∧
     (createAudio demoState (fun _ => none)).state.cachePath = none ∧
     (createAudio demoState (fun _ => none)).bgUploadStarted = false) ∧
    ((createAudio demoState (fun _ => some [7])).state.audioStatus = .ready ∧
     (createAudio demoState (fun _ => some [7])).state.cachePath.isSome = true ∧
     (createAudio demoState (fun _ => some [7])).bgUploadStarted = true ∧
     (createAudio demoState (fun _ => some [7])).state.s3Path = demoState.s3Path) :=
  ⟨(createAudio_failure_tolerance demoState (fun _ => none) rfl (Or.inl rfl)
      rfl).1 (fun _ _ => rfl),
   (createAudio_failure_tolerance demoState (fun _ => some [7]) rfl (Or.inl rfl)
      rfl).2 ⟨0, by decide, rfl⟩⟩

/-! ## Subscription-hub lemmas -/

theorem setStateM_deliveries_destroyed (m : Manager) (u : StateUpd)
    (h : m.destroyed = true) : (setStateM m u).2 = [] := by
  simp [setStateM, h]

theorem stopM_deliveries_destroyed (m : Manager) (h : m.destroyed = true) :
    (stopM m).2 = [] := by
  by_cases hp : m.state.isPlaying <;>
    simp [stopM, stopAnyExistingAudioM, setStateM, h, hp]

theorem destroyM_deliveries (m : Manager) : (destroyM m).2 = [] := by
  by_cases hp : m.state.isPlaying <;>
    simp [destroyM, stopM, stopAnyExistingAudioM, setStateM, hp]

theorem destroyM_destroyed (m : Manager) : (destroyM m).1.destroyed = true := by
  by_cases hp : m.state.isPlaying <;>
    simp [destroyM, stopM, stopAnyExistingAudioM, setStateM, hp]

theorem destroyM_nextId (m : Manager) : (destroyM m).1.nextId = m.nextId := by
  by_cases hp : m.state.isPlaying <;>
    simp [destroyM, stopM, stopAnyExistingAudioM, setStateM, hp]

/-- Once the destroyed flag is set, every operation keeps it set, never
lowers the subscription counter, and delivers snapshots only to listener
identities at or above the current counter (i.e. to subscriptions made after
this point). -/
theorem runOp_destroyed_fresh (m : Manager) (op : Op) (h : m.destroyed = true) :
    (runOp m op).1.destroyed = true ∧ m.nextId ≤ (runOp m op).1.nextId ∧
    ∀ d ∈ (runOp m op).2, m.nextId ≤ d.listenerId := by
  cases op with
  | subscribeOp =>
    refine ⟨h, by simp [runOp, subscribeM], ?_⟩
    intro d hd
    simp only [runOp, subscribeM, List.mem_singleton] at hd
    subst hd
    exact Nat.le_refl _
  | unsubscribeOp i => simp [runOp, unsubscribeM, h]
  | mutateOp u =>
    refine ⟨h, Nat.le_refl _, ?_⟩
    rw [show (runOp m (.mutateOp u)).2 = (setStateM m u).2 from rfl,
      setStateM_deliveries_destroyed m u h]
    simp
  | stopOp =>
    refine ⟨?_, ?_, ?_⟩
    · simp only [runOp]
      by_cases hp : m.state.isPlaying <;>
        simp [stopM, stopAnyExistingAudioM, setStateM, h, hp]
    · simp only [runOp]
      by_cases hp : m.state.isPlaying <;>
        simp [stopM, stopAnyExistingAudioM, setStateM, hp]
    · rw [show (runOp m .stopOp).2 = (stopM m).2 from rfl,
        stopM_deliveries_destroyed m h]
      simp
  | destroyOp =>
    refine ⟨destroyM_destroyed m, ?_, ?_⟩
    · rw [show (runOp m .destroyOp).1 = (destroyM m).1 from rfl,
        destroyM_nextId]
    · rw [show (runOp m .destroyOp).2 = (destroyM m).2 from rfl,
        destroyM_deliveries]
      simp

/-- Along any trace from a destroyed manager, every delivery targets a
listener identity at or above the bound that the counter respects. -/
theorem runOps_destroyed_fresh (ops : List Op) (m0 : Manager) (bound : Nat)
    (h : m0.destroyed = true) (hb : bound ≤ m0.nextId) :
    ∀ d ∈ (runOps m0 ops).2, bound ≤ d.listenerId := by
  induction ops generalizing m0 with
  | nil => simp [runOps]
  | cons op ops ih =>
    intro d hd
    rw [runOps] at hd
    obtain ⟨h1, h2, h3⟩ := runOp_destroyed_fresh m0 op h
    rcases List.mem_append.mp hd with hd | hd
    · exact Nat.le_trans hb (h3 d hd)
    · exact ih (runOp m0 op).1 h1 (Nat.le_trans hb h2) d hd

/-! ## Claims C8 and C7 -/

/-- C8: `destroy()` delivers no notification itself (its internal `stop()`
mutation is already suppressed by the destroyed flag), and for every trace
of later operations on the instance, no delivery ever targets an observer
that was subscribed before `destroy()` (subscription identities recorded in
`m.listeners`): the destroyed flag is permanent, all setState-based
notifications stay suppressed, and only re-subscriptions made after
`destroy()` (which receive fresh identities) are ever handed a snapshot. -/
theorem destroy_silences_observers (m : Manager) (ops : List Op)
    (hwf : ∀ i ∈ m.listeners, i < m.nextId) :
    ((destroyM m).2 = []) ∧
    (∀ d ∈ (runOps (destroyM m).1 ops).2, d.listenerId ∉ m.listeners) := by
  refine ⟨destroyM_deliveries m, ?_⟩
  intro d hd hdm
  have hfresh := runOps_destroyed_fresh ops (destroyM m).1 m.nextId
    (destroyM_destroyed m) (by rw [destroyM_nextId]) d hd
  have := hwf d.listenerId hdm
  omega

/-- Witness for C8: one subscriber, then `destroy`, then a trace that
subscribes again, mutates and stops — the old subscription (identity 0)
never receives another snapshot. -/
theorem destroy_silences_observers_witness :
    (∀ i ∈ (subscribeM freshManager).1.listeners,
      i < (subscribeM freshManager).1.nextId) ∧
    ((destroyM (subscribeM freshManager).1).2 = [] ∧
     (∀ d ∈ (runOps (destroyM (subscribeM freshManager).1).1
        [.subscribeOp, .mutateOp ⟨none, none, none, none, none, none, none, none⟩,
         .stopOp]).2,
       d.listenerId ∉ (subscribeM freshManager).1.listeners)) :=
  ⟨by decide, destroy_silences_observers _ _ (by decide)⟩

/-- C7 counterexample: `destroy()` itself performs a state mutation — the
`stop()` it calls writes `isPlaying := false` through `setState` — after
setting the destroyed flag but while the observer list is still populated
(it is cleared only at the end of `destroy`), and that mutation notifies
nobody.  So "every state mutation … synchronously notifies all current
observers" is false as stated. -/
theorem subscription_hub_counterexample :
    (subscribeM freshManager).1.listeners = [0] ∧
    (destroyM (subscribeM freshManager).1).2 = [] := by
  decide

/-- C7 (amended): `subscribe(callback)` synchronously delivers the current
snapshot (a fresh copy, not the live record) before returning the
unsubscribe handle, and the handle removes exactly that subscription;
`setState` merges — does not replace — the partial update into the single
state record (unmentioned fields persist, mentioned fields are overwritten)
and, unless `destroy()` has been called (the destroyed flag suppresses all
notification), synchronously notifies every current observer with one fresh
snapshot copy whose object identity differs from the live mutable record, so
observers cannot corrupt the manager's state through the value they
receive. -/
theorem subscription_hub_semantics (m : Manager) (u : StateUpd)
    (hcell : m.liveCell < m.nextCell) :
    ((subscribeM m).2.2 = [⟨m.nextId, m.nextCell, m.state⟩] ∧
     (subscribeM m).1.listeners = m.listeners ++ [m.nextId] ∧
     (∀ d ∈ (subscribeM m).2.2, d.cell ≠ (subscribeM m).1.liveCell) ∧
     ((∀ i ∈ m.listeners, i < m.nextId) →
       (unsubscribeM (subscribeM m).1 m.nextId).listeners = m.listeners)) ∧
    ((setStateM m u).1.state = mergeState m.state u ∧
     (u.isPlaying = none → (setStateM m u).1.state.isPlaying = m.state.isPlaying) ∧
     (u.chunks = none → (setStateM m u).1.state.chunks = m.state.chunks) ∧
     (u.cachePath = none → (setStateM m u).1.state.cachePath = m.state.cachePath) ∧
     (u.s3Path = none → (setStateM m u).1.state.s3Path = m.state.s3Path) ∧
     (u.audioStatus = none →
       (setStateM m u).1.state.audioStatus = m.state.audioStatus) ∧
     (u.audioError = none →
       (setStateM m u).1.state.audioError = m.state.audioError) ∧
     (m.destroyed = false →
       (setStateM m u).2 =
         m.listeners.map fun l => ⟨l, m.nextCell + 1, mergeState m.state u⟩) ∧
     (∀ d ∈ (setStateM m u).2, d.cell ≠ (setStateM m u).1.liveCell)) := by
  refine ⟨⟨rfl, rfl, ?_, ?_⟩, rfl, ?_, ?_, ?_, ?_, ?_, ?_, ?_, ?_⟩
  · intro d hd
    simp only [subscribeM, List.mem_singleton] at hd
    subst hd
    simp [subscribeM]
    omega
  · intro hwf
    simp only [unsubscribeM, subscribeM, List.filter_append]
    rw [List.filter_eq_self.mpr, List.filter_cons]
    · simp
    · intro a ha
      have := hwf a ha
      simp
      omega
  · intro h; simp [setStateM, mergeState, h]
  · intro h; simp [setStateM, mergeState, h]
  · intro h; simp [setStateM, mergeState, h]
  · intro h; simp [setStateM, mergeState, h]
  · intro h; simp [setStateM, mergeState, h]
  · intro h; simp [setStateM, mergeState, h]
  · intro h; simp [setStateM, h]
  · intro d hd
    rw [show (setStateM m u).1.liveCell = m.nextCell from rfl]
    by_cases hD : m.destroyed = true
    · rw [setStateM_deliveries_destroyed m u hD] at hd
      simp at hd
    · have hds : (setStateM m u).2 =
          m.listeners.map fun l => ⟨l, m.nextCell + 1, mergeState m.state u⟩ := by
        simp [setStateM, hD]
      rw [hds] at hd
      obtain ⟨l, -, rfl⟩ := List.mem_map.mp hd
      show m.nextCell + 1 ≠ m.nextCell
      omega

/-- Witness for C7 at a fresh manager: subscribing delivers exactly the
current snapshot to the new listener, in a fresh cell. -/
theorem subscription_hub_semantics_witness :
    freshManager.liveCell < freshManager.nextCell ∧
    (subscribeM freshManager).2.2 = [⟨0, 1, freshManager.state⟩] :=
  ⟨by decide,
    (subscription_hub_semantics freshManager
      ⟨none, none, none, none, none, none, none, none⟩ (by decide)).1.1⟩

/-! ## Claim C9 -/

/-- C9 counterexample: when the primary upload fails and the
alternate-encoding retry succeeds, the parent-record callback fires exactly
once although no verification `get` was ever issued — so "onAudioAssigned is
invoked only after the uploaded object's retrievability has been verified"
is false as stated. -/
theorem persistence_verification_counterexample :
    (saveAudioToS3InBackground (some [1]) ⟨false, true, false⟩).callbackCalls = 1 ∧
    (saveAudioToS3InBackground (some [1]) ⟨false, true, false⟩).verified = false := by
  decide

/-- C9 (amended): persistence is non-fatal (no run rejects); at most two
upload attempts, the second — the alternate-encoding retry — issued exactly
when a cached track exists and the primary upload fails; the durable key is
recorded exactly when some upload succeeded; the parent-record callback is
invoked at most once per persisted track; on the primary path it is invoked
exactly when verification succeeds, and then only after the verification
`get`; on the retry path it is invoked exactly when the retry upload
succeeds, without any verification. -/
theorem persistence_semantics (cachePath : Option Buffer) (env : PersistEnv) :
    (saveAudioToS3InBackground cachePath env).fatal = false ∧
    (saveAudioToS3InBackground cachePath env).uploadAttempts ≤ 2 ∧
    ((saveAudioToS3InBackground cachePath env).uploadAttempts = 2 ↔
      cachePath.isSome = true ∧ env.putArrayBufferOk = false) ∧
    (saveAudioToS3InBackground cachePath env).s3PathSet =
      (cachePath.isSome && (env.putArrayBufferOk || env.putBlobOk)) ∧
    (saveAudioToS3InBackground cachePath env).callbackCalls ≤ 1 ∧
    (env.putArrayBufferOk = true →
      ((saveAudioToS3InBackground cachePath env).callbackCalls = 1 ↔
        cachePath.isSome = true ∧ env.getOk = true) ∧
      ((saveAudioToS3InBackground cachePath env).callbackCalls = 1 →
        (saveAudioToS3InBackground cachePath env).verified = true)) ∧
    (env.putArrayBufferOk = false →
      ((saveAudioToS3InBackground cachePath env).callbackCalls = 1 ↔
        cachePath.isSome = true ∧ env.putBlobOk = true) ∧
      (saveAudioToS3InBackground cachePath env).verified = false) := by
  rcases env with ⟨p1, p2, g⟩
  cases cachePath with
  | none =>
    cases p1 <;> cases p2 <;> cases g <;>
      simp [saveAudioToS3InBackground]
  | some t =>
    cases p1 <;> cases p2 <;> cases g <;>
      simp [saveAudioToS3InBackground]

end AudioMgr
